import Mathlib

/-!
Verification of the ALSHub user-service adapter (splash-userservice).

This file is a shallow embedding of the repository's source:
  - splash_userservice/models.py : response data model (pydantic records)
  - alshub/service.py            : the ALSHub adapter service

HTTP calls are modelled by an environment that fixes, for each of the four
remote endpoints, the outcome of the single GET issued against it during one
lookup (a transport-level exception, or a response with a status code and a
parsed JSON body).  Python exceptions are modelled by an error type carried
in Except; pydantic validation of required fields is modelled by fallible
record constructors.  JSON nulls are collapsed into field absence except for
the OrgEmail key of the person response, where the distinction between an
absent key (KeyError on subscription) and a present value matters.
-/

deriving instance DecidableEq for Except

namespace Splash

/-- Python truthiness of an optional string: None and the empty string are
falsy, every other string is truthy. -/
def truthyS : Option String → Bool
  | none => false
  | some s => !(s == "")

/-- IDType enumeration of splash_userservice.service. -/
inductive IDType where
  | orcid
  | email
deriving DecidableEq

/-- UniqueId record of splash_userservice/models.py. -/
structure UniqueId where
  id : String
  source : Option String := none
deriving DecidableEq

/-- User record of splash_userservice/models.py (legacy v1 shape).
uid and orcid are required; the rest default to None. -/
structure User where
  uid : String
  authenticators : Option (List UniqueId) := none
  given_name : Option String := none
  family_name : Option String := none
  current_institution : Option String := none
  current_email : Option String := none
  groups : Option (List String) := none
  orcid : String
deriving DecidableEq

/-- V2UserEsaf record of splash_userservice/models.py.  roles and id are
required; the rest default to None. -/
structure V2UserEsaf where
  roles : List String
  id : String
  title : Option String := none
  proposal_id : Option String := none
  beamline_id : Option String := none
  earliest_start : Option String := none
  latest_end : Option String := none
deriving DecidableEq

/-- V2UserGroupDetails record of splash_userservice/models.py
(V2UserBase + groups + beamlines/proposals/esafs). -/
structure V2UserGroupDetails where
  uid : Option Int := none
  given_name : Option String := none
  family_name : Option String := none
  current_institution : Option String := none
  current_email : Option String := none
  orcid : String
  groups : List String
  beamlines : List String := []
  proposals : List String := []
  esafs : List V2UserEsaf := []
deriving DecidableEq

/-- The Python exceptions that can escape the adapter's operations. -/
inductive PyError where
  | userNotFound
  | communicationErrorExn (url : String)
  | communicationErrorStatus (status : Nat)
  | keyError (key : String)
  | indexError
  | uncaughtHttpException
  | validationError (field : String)
deriving DecidableEq

/-- Outcome of one HTTP GET: a transport-level exception raised by the
client library, or a response with a status code and parsed body. -/
inductive HttpOutcome (α : Type) where
  | exn
  | resp (status : Nat) (body : α)
deriving DecidableEq

/-- httpx Response.is_error: client errors (4xx) and server errors (5xx). -/
def isError (status : Nat) : Bool := 400 ≤ status && status ≤ 599

/-- Person-lookup (ALSGetPerson) JSON body.  Each field is the value read by
dict.get on the corresponding key.  OrgEmail keeps an extra layer because the
source also subscripts it directly: the outer none means the key is absent
(subscription raises KeyError), some v means the key is present with value v
(v = none models a JSON null). -/
structure PersonResponse where
  LBNLID : Option String := none
  FirstName : Option String := none
  LastName : Option String := none
  Institution : Option String := none
  OrgEmail : Option (Option String) := none
  orcid : Option String := none
deriving DecidableEq

/-- Person-roles (ALSGetPersonRoles) JSON body.  The Beamline Roles key,
when present, holds a list of JSON objects, each modelled as an association
list from beamline identifier to role-name list (Python dicts preserve key
order, and list(d.keys())[0] reads the first key). -/
structure RolesBody where
  beamlineRoles : Option (List (List (String × List String))) := none
deriving DecidableEq

/-- Proposals (ALSGetProposalsBy) JSON body. -/
structure ProposalsBody where
  Proposals : Option (List String) := none
deriving DecidableEq

/-- A PI / ExpLead / Participants entry of an ESAF object: Orcid = none
models the Orcid key being absent (or null). -/
structure EsafPerson where
  Orcid : Option String := none
deriving DecidableEq

/-- A ScheduledEvents entry of an ESAF object.  none models the key being
absent; a JSON null is collapsed to some "" (the source replaces a null
value by "" before parsing, and "" never parses). -/
structure EsafEvent where
  StartDate : Option String := none
  EndDate : Option String := none
deriving DecidableEq

/-- One ESAF object returned by EsafInformation/GetESAF. -/
structure EsafObj where
  EsafFriendlyId : Option String := none
  Title : Option String := none
  ProposalFriendlyId : Option String := none
  Beamline : Option String := none
  PI : Option EsafPerson := none
  ExpLead : Option EsafPerson := none
  Participants : List EsafPerson := []
  ScheduledEvents : List EsafEvent := []
deriving DecidableEq

/-- The four remote endpoints contacted during a lookup. -/
inductive Endpoint where
  | person
  | roles
  | proposals
  | esaf
deriving DecidableEq

/-- Environment of one lookup: the outcome of the (single) GET against each
endpoint.  All calls within a lookup are sequential, so one outcome per
endpoint suffices. -/
structure Env where
  person : HttpOutcome PersonResponse
  roles : HttpOutcome (Option RolesBody)
  proposals : HttpOutcome ProposalsBody
  esaf : HttpOutcome (List EsafObj)

def ALSHUB_PERSON : String := "ALSGetPerson"

def ALSHUB_APPROVAL_ROLES : List String := ["Scientist"]

/-- The relative URL of the person-lookup request, as interpolated in the
source: ALSGetPerson with query parameter em= or or=. -/
def personUrl (qparam id : String) : String :=
  ALSHUB_PERSON ++ "/?" ++ qparam ++ "=" ++ id

/-- Python sets of strings are modelled as duplicate-free lists; adding an
element is List.insert (no change when already present).  set.update(l)
adds every element of l in order. -/
def updateS (s : List String) (l : List String) : List String :=
  l.foldl (fun acc x => acc.insert x) s

/-- The override beamlines contributed by the admin table for a given email:
the source adds ADMINS.get(email) to the fresh beamline set when email is
truthy, ADMINS is nonempty and email is a key of ADMINS. -/
def adminBeamlines (admins : List (String × List String)) (email : Option String) :
    List String :=
  if truthyS email && !admins.isEmpty then
    match admins.lookup (email.getD "") with
    | some bs => updateS [] bs
    | none => []
  else []

/-- Loop body of alshub_roles_to_beamline_groups: walks the Beamline Roles
list, reads the first key of each object (IndexError on an empty object) and
appends that key once for every approval role contained in its role list. -/
def rolesToGroupsAux (approval : List String) (acc : List String) :
    List (List (String × List String)) → Except PyError (List String)
  | [] => .ok acc
  | [] :: _ => .error .indexError
  | ((bid, roleList) :: _) :: rest =>
      rolesToGroupsAux approval
        (acc ++ (approval.filter (fun a => roleList.contains a)).map (fun _ => bid)) rest

/-- alshub_roles_to_beamline_groups of alshub/service.py. -/
def alshub_roles_to_beamline_groups (brs : List (List (String × List String)))
    (approval : List String) : Except PyError (List String) :=
  rolesToGroupsAux approval [] brs

/-- get_staff_beamlines of alshub/service.py.  The roles GET is issued first
(a transport exception there is not caught and propagates); the override
beamlines are collected; an error-range status returns just the overrides; a
response with content contributes the beamlines whose role list holds an
approval role; a response without content returns just the overrides. -/
def get_staff_beamlines (admins : List (String × List String))
    (rolesOut : HttpOutcome (Option RolesBody)) (email : Option String) :
    Except PyError (List String) :=
  match rolesOut with
  | .exn => .error .uncaughtHttpException
  | .resp status content =>
    let base := adminBeamlines admins email
    if isError status then .ok base
    else
      match content with
      | some body =>
        match body.beamlineRoles with
        | some brs =>
          if brs.isEmpty then .ok base
          else
            match alshub_roles_to_beamline_groups brs ALSHUB_APPROVAL_ROLES with
            | .error e => .error e
            | .ok ids => .ok (updateS base ids)
        | none => .ok base
      | none => .ok base

/-- get_user_proposals of alshub/service.py.  The GET is not wrapped in
try/except; an error-range status yields an empty contribution; a missing or
empty Proposals list yields an empty contribution; otherwise the proposal
identifiers as a set. -/
def get_user_proposals (out : HttpOutcome ProposalsBody) :
    Except PyError (List String) :=
  match out with
  | .exn => .error .uncaughtHttpException
  | .resp status body =>
    if isError status then .ok []
    else
      match body.Proposals with
      | none => .ok []
      | some ps => if ps.isEmpty then .ok [] else .ok (updateS [] ps)

/-- get_user_esafs of alshub/service.py.  The GET is not wrapped in
try/except; an error-range status or an empty body yields no ESAFs. -/
def get_user_esafs (out : HttpOutcome (List EsafObj)) :
    Except PyError (List EsafObj) :=
  match out with
  | .exn => .error .uncaughtHttpException
  | .resp status body =>
    if isError status then .ok []
    else if body.isEmpty then .ok [] else .ok body

/-- The set comprehension over esaf["ProposalFriendlyId"]: direct
subscription, so a missing key raises KeyError. -/
def esafIds : List EsafObj → Except PyError (List String)
  | [] => .ok []
  | e :: rest =>
    match e.ProposalFriendlyId with
    | none => .error (.keyError "ProposalFriendlyId")
    | some pid =>
      match esafIds rest with
      | .error er => .error er
      | .ok s => .ok (s.insert pid)

/-- Construction of a User record: pydantic raises a validation error when a
required field (uid, orcid) is None. -/
def mkUser (uid gn fn inst em : Option String) (groups : Option (List String))
    (orc : Option String) : Except PyError User :=
  match uid with
  | none => .error (.validationError "uid")
  | some u =>
    match orc with
    | none => .error (.validationError "orcid")
    | some o =>
      .ok { uid := u, given_name := gn, family_name := fn,
            current_institution := inst, current_email := em,
            groups := groups, orcid := o }

/-- The local orcid variable of get_user: the input identifier when keyed by
orcid, otherwise the orcid field of the person response. -/
def localOrcid (id : String) (id_type : IDType) (body : PersonResponse) :
    Option String :=
  if id_type = IDType.orcid then some id else body.orcid

/-- The person-lookup step shared by get_user and v2_get_user_groupdetails:
a transport exception raises CommunicationError carrying the request URL, a
404 raises UserNotFound, any other error-range status raises
CommunicationError with the status, and a success status yields the parsed
body. -/
def personStep (out : HttpOutcome PersonResponse) (qparam id : String) :
    Except PyError PersonResponse :=
  match out with
  | .exn => .error (.communicationErrorExn (personUrl qparam id))
  | .resp status body =>
    if status = 404 then .error .userNotFound
    else if isError status then .error (.communicationErrorStatus status)
    else .ok body

/-- get_user of alshub/service.py after a successful person lookup.  When
the local orcid is truthy the response's OrgEmail is subscripted directly
(KeyError when the key is absent) and the roles call is made regardless of
fetch_groups; with fetch_groups the proposals and ESAF calls follow and the
group set is the union of the three contributions; without fetch_groups the
User is built with no groups key at all. -/
def get_user_rest (admins : List (String × List String)) (env : Env)
    (id : String) (id_type : IDType) (fetch_groups : Bool)
    (body : PersonResponse) : List Endpoint × Except PyError User :=
  if truthyS (localOrcid id id_type body) then
    match body.OrgEmail with
    | none => ([.person], .error (.keyError "OrgEmail"))
    | some email =>
      match get_staff_beamlines admins env.roles email with
      | .error e => ([.person, .roles], .error e)
      | .ok beamlines =>
        if fetch_groups then
          match get_user_proposals env.proposals with
          | .error e => ([.person, .roles, .proposals], .error e)
          | .ok props =>
            match get_user_esafs env.esaf with
            | .error e => ([.person, .roles, .proposals, .esaf], .error e)
            | .ok objs =>
              match esafIds objs with
              | .error e => ([.person, .roles, .proposals, .esaf], .error e)
              | .ok eids =>
                ([.person, .roles, .proposals, .esaf],
                 mkUser body.LBNLID body.FirstName body.LastName body.Institution
                   (Option.join body.OrgEmail)
                   (some (updateS (updateS (updateS [] beamlines) props) eids))
                   body.orcid)
        else
          ([.person, .roles],
           mkUser body.LBNLID body.FirstName body.LastName body.Institution
             (Option.join body.OrgEmail) none body.orcid)
  else
    if fetch_groups then
      ([.person],
       mkUser body.LBNLID body.FirstName body.LastName body.Institution
         (Option.join body.OrgEmail) (some []) body.orcid)
    else
      ([.person],
       mkUser body.LBNLID body.FirstName body.LastName body.Institution
         (Option.join body.OrgEmail) none body.orcid)

/-- get_user of alshub/service.py, returning the endpoints contacted (in
order) and the result or raised exception. -/
def get_user (admins : List (String × List String)) (env : Env) (id : String)
    (id_type : IDType) (fetch_groups : Bool) : List Endpoint × Except PyError User :=
  match personStep env.person (if id_type = IDType.email then "em" else "or") id with
  | .error e => ([.person], .error e)
  | .ok body => get_user_rest admins env id id_type fetch_groups body

/-- A calendar date, the payload of the datetime produced by
parse_esaf_date (the time is always midnight and the tzinfo always
America/Los_Angeles, so only the date varies). -/
structure EsafDate where
  year : Nat
  month : Nat
  day : Nat
deriving DecidableEq

/-- Encoding under which comparison of two parsed ESAF datetimes agrees with
Python's comparison of the underlying aware datetimes (lexicographic on the
calendar date: the UTC offsets differ by at most one hour, which two
distinct calendar dates at midnight cannot cancel). -/
def EsafDate.key (d : EsafDate) : Nat :=
  d.year * 10000 + d.month * 100 + d.day

def isLeap (y : Nat) : Bool :=
  (y % 4 = 0 && !(y % 100 = 0)) || y % 400 = 0

def daysInMonth (y m : Nat) : Nat :=
  if m = 2 then (if isLeap y then 29 else 28)
  else if m = 4 || m = 6 || m = 9 || m = 11 then 30
  else 31

/-- Splits a character list at every slash (the structure of the %m/%d/%Y
format string). -/
def splitSlash : List Char → List Char → List (List Char)
  | [], cur => [cur.reverse]
  | c :: rest, cur =>
    if c = '/' then cur.reverse :: splitSlash rest []
    else splitSlash rest (c :: cur)

def digitsToNat (cs : List Char) : Nat :=
  cs.foldl (fun acc c => acc * 10 + (c.toNat - 48)) 0

def isDigitField (cs : List Char) (maxLen : Nat) : Bool :=
  1 ≤ cs.length && cs.length ≤ maxLen && cs.all Char.isDigit

/-- The strptime %m field: the pattern 1[0-2]|0[1-9]|[1-9], i.e. one or two
digits whose value is a month number. -/
def parseMonthField (cs : List Char) : Option Nat :=
  if isDigitField cs 2 then
    let m := digitsToNat cs
    if 1 ≤ m && m ≤ 12 then some m else none
  else none

/-- The strptime %d field: the pattern 3[01]|[12]\d|0[1-9]|[1-9]| [1-9],
i.e. one or two digits whose value is in 1..31, or a space followed by a
nonzero digit (space-padded day-of-month). -/
def parseDayField (cs : List Char) : Option Nat :=
  match cs with
  | [' ', c] => if c.isDigit && !(c == '0') then some (c.toNat - 48) else none
  | _ =>
    if isDigitField cs 2 then
      let d := digitsToNat cs
      if 1 ≤ d && d ≤ 31 then some d else none
    else none

/-- The strptime %Y field: exactly four digits; a year below datetime's
minimum of 1 still raises ValueError at date construction. -/
def parseYearField (cs : List Char) : Option Nat :=
  if cs.length = 4 && cs.all Char.isDigit then
    let y := digitsToNat cs
    if 1 ≤ y then some y else none
  else none

/-- parse_esaf_date of alshub/service.py: datetime.strptime with format
%m/%d/%Y — the three fields above separated by slashes, the whole string
consumed, and the day valid for the month (date construction raises
ValueError otherwise); any failure returns None. -/
def parse_esaf_date (s : String) : Option EsafDate :=
  match splitSlash s.data [] with
  | [ms, ds, ys] =>
    match parseMonthField ms, parseDayField ds, parseYearField ys with
    | some m, some d, some y =>
      if d ≤ daysInMonth y m then some { year := y, month := m, day := d }
      else none
    | _, _, _ => none
  | _ => none

/-- The earliest_start accumulation of the ScheduledEvents loop in
v2_get_user_groupdetails: parse each present StartDate (a null value is
replaced by "" first) and keep the strictly smaller date. -/
def earliestAux : List EsafEvent → Option EsafDate → Option EsafDate
  | [], acc => acc
  | ev :: rest, acc =>
    earliestAux rest
      (match ev.StartDate.bind parse_esaf_date with
       | none => acc
       | some d =>
         match acc with
         | none => some d
         | some cur => if d.key < cur.key then some d else acc)

/-- The latest_end accumulation of the same loop. -/
def latestAux : List EsafEvent → Option EsafDate → Option EsafDate
  | [], acc => acc
  | ev :: rest, acc =>
    latestAux rest
      (match ev.EndDate.bind parse_esaf_date with
       | none => acc
       | some d =>
         match acc with
         | none => some d
         | some cur => if cur.key < d.key then some d else acc)

def foldEarliest (events : List EsafEvent) : Option EsafDate :=
  earliestAux events none

def foldLatest (events : List EsafEvent) : Option EsafDate :=
  latestAux events none

/-- The parseable StartDate values of an event list, in order. -/
def parsedStarts (events : List EsafEvent) : List EsafDate :=
  events.filterMap (fun ev => ev.StartDate.bind parse_esaf_date)

/-- The parseable EndDate values of an event list, in order. -/
def parsedEnds (events : List EsafEvent) : List EsafDate :=
  events.filterMap (fun ev => ev.EndDate.bind parse_esaf_date)

def pad2 (n : Nat) : String :=
  if n < 10 then "0" ++ toString n else toString n

def pad4 (n : Nat) : String :=
  if n < 10 then "000" ++ toString n
  else if n < 100 then "00" ++ toString n
  else if n < 1000 then "0" ++ toString n
  else toString n

/-- Day of week (0 = Sunday) by Sakamoto's method. -/
def dayOfWeekOf (y m d : Nat) : Nat :=
  let t := [0, 3, 2, 5, 0, 3, 5, 1, 4, 6, 2, 4]
  let y2 := if m < 3 then y - 1 else y
  (y2 + y2 / 4 - y2 / 100 + y2 / 400 + t.getD (m - 1) 0 + d) % 7

/-- Day of month of the first Sunday of the given month. -/
def firstSundayOf (y m : Nat) : Nat :=
  1 + (7 - dayOfWeekOf y m 1) % 7

/-- Day of month of the last Sunday of the given month. -/
def lastSundayOf (y m : Nat) : Nat :=
  daysInMonth y m - dayOfWeekOf y m (daysInMonth y m)

/-- month*100 + day, for within-year date comparisons. -/
def mdKey (m d : Nat) : Nat := m * 100 + d

/-- Whether midnight on the given date falls in daylight saving time in the
America/Los_Angeles zone, following the tz database's full history of that
zone (transitions happen at 01:00 or later, so midnight on a transition day
still carries the previous offset): no DST before 1918; the 1918-1919
federal rule; year-round war time 1942-1945; the California rules 1948-1966
including the 1948 start and the new-year 1949 end; the federal rules from
1967 with the 1974-1975 emergency starts, the 1976-1986 and 1987-2006
rules; and the post-2007 rule, which zoneinfo extrapolates to all later
years.  (The pre-1883 local-mean-time era is handled by the offset
renderer, not here.) -/
def isDSTmidnightLA (dt : EsafDate) : Bool :=
  let y := dt.year
  let md := mdKey dt.month dt.day
  if y < 1918 then false
  else if y ≤ 1919 then
    mdKey 3 (lastSundayOf y 3) < md && md ≤ mdKey 10 (lastSundayOf y 10)
  else if y < 1942 then false
  else if y = 1942 then mdKey 2 9 < md
  else if y ≤ 1944 then true
  else if y = 1945 then md ≤ mdKey 9 30
  else if y ≤ 1947 then false
  else if y = 1948 then mdKey 3 14 < md
  else if y = 1949 then md = mdKey 1 1
  else if y ≤ 1961 then
    mdKey 4 (lastSundayOf y 4) < md && md ≤ mdKey 9 (lastSundayOf y 9)
  else if y ≤ 1973 then
    mdKey 4 (lastSundayOf y 4) < md && md ≤ mdKey 10 (lastSundayOf y 10)
  else if y = 1974 then
    mdKey 1 6 < md && md ≤ mdKey 10 (lastSundayOf y 10)
  else if y = 1975 then
    mdKey 2 23 < md && md ≤ mdKey 10 (lastSundayOf y 10)
  else if y ≤ 1986 then
    mdKey 4 (lastSundayOf y 4) < md && md ≤ mdKey 10 (lastSundayOf y 10)
  else if y ≤ 2006 then
    mdKey 4 (firstSundayOf y 4) < md && md ≤ mdKey 10 (lastSundayOf y 10)
  else
    mdKey 3 (firstSundayOf y 3 + 7) < md && md ≤ mdKey 11 (firstSundayOf y 11)

/-- The UTC offset zoneinfo reports for midnight on the given date in
America/Los_Angeles, as isoformat renders it: local mean time -07:52:58
through 1883-11-18 (the zone's first transition is at 20:00 UTC that day,
after midnight), then -08:00 standard / -07:00 daylight. -/
def laOffsetAtMidnight (dt : EsafDate) : String :=
  if dt.key ≤ 18831118 then "-07:52:58"
  else if isDSTmidnightLA dt then "-07:00" else "-08:00"

/-- datetime.isoformat of midnight on the given date with tzinfo
ZoneInfo America/Los_Angeles. -/
def isoformatLA (d : EsafDate) : String :=
  pad4 d.year ++ "-" ++ pad2 d.month ++ "-" ++ pad2 d.day ++ "T00:00:00" ++
    laOffsetAtMidnight d

/-- The participant scan of the ESAF loop: walk Participants and append
"participant" for the first entry whose Orcid equals the requested orcid,
stopping at that entry. -/
def participantScan (orcid : String) : List EsafPerson → List String
  | [] => []
  | p :: rest =>
    if p.Orcid = some orcid then ["participant"] else participantScan orcid rest

/-- The "pi" append of the ESAF loop: taken when the PI key is present with
an Orcid equal to the requested orcid. -/
def piPart (orcid : String) (e : EsafObj) : List String :=
  match e.PI with
  | some p => if p.Orcid = some orcid then ["pi"] else []
  | none => []

/-- The "explead" append of the ESAF loop, likewise for ExpLead. -/
def expPart (orcid : String) (e : EsafObj) : List String :=
  match e.ExpLead with
  | some p => if p.Orcid = some orcid then ["explead"] else []
  | none => []

/-- The roles computed for one ESAF in v2_get_user_groupdetails: "pi" when
the PI key is present with an Orcid equal to the requested orcid, then
"explead" likewise for ExpLead, then the participant scan. -/
def esafRoles (orcid : String) (e : EsafObj) : List String :=
  piPart orcid e ++ expPart orcid e ++ participantScan orcid e.Participants

/-- The body of the per-ESAF loop of v2_get_user_groupdetails: compute the
roles and the scheduled-event date range, then build the V2UserEsaf record
(pydantic raises a validation error when EsafFriendlyId is missing, since
the id field is required). -/
def processEsaf (orcid : String) (e : EsafObj) : Except PyError V2UserEsaf :=
  let roles := esafRoles orcid e
  let es := foldEarliest e.ScheduledEvents
  let le := foldLatest e.ScheduledEvents
  match e.EsafFriendlyId with
  | none => .error (.validationError "id")
  | some fid =>
    .ok { roles := roles, id := fid, title := e.Title,
          proposal_id := e.ProposalFriendlyId, beamline_id := e.Beamline,
          earliest_start := es.map isoformatLA,
          latest_end := le.map isoformatLA }

/-- The per-ESAF loop itself, in response order. -/
def processEsafs (orcid : String) : List EsafObj → Except PyError (List V2UserEsaf)
  | [] => .ok []
  | e :: rest =>
    match processEsaf orcid e with
    | .error er => .error er
    | .ok v =>
      match processEsafs orcid rest with
      | .error er => .error er
      | .ok vs => .ok (v :: vs)

/-- The "or None" coercion applied to the identity fields in the
V2UserGroupDetails construction: a falsy value (None or "") becomes None. -/
def orNone (o : Option String) : Option String :=
  match o with
  | some s => if s = "" then none else some s
  | none => none

/-- int parsing of a string (an optional minus sign followed by digits),
modelling the numeric coercion pydantic applies to string input. -/
def intOfChars (cs : List Char) : Option Int :=
  match cs with
  | '-' :: rest =>
    if 1 ≤ rest.length && rest.all Char.isDigit then some (-(digitsToNat rest : Int))
    else none
  | rest =>
    if 1 ≤ rest.length && rest.all Char.isDigit then some (digitsToNat rest : Int)
    else none

/-- pydantic coercion of the LBNLID value into the Optional[int] uid field
of V2UserBase: a missing value stays None, a numeric string is coerced, and
anything else raises a validation error. -/
def uidIntField (o : Option String) : Except PyError (Option Int) :=
  match o with
  | none => .ok none
  | some s =>
    match intOfChars s.data with
    | some n => .ok (some n)
    | none => .error (.validationError "uid")

/-- Construction of the V2UserGroupDetails record at the end of
v2_get_user_groupdetails (groups, beamlines and proposals are the list
renderings of the respective sets). -/
def mkV2 (body : PersonResponse) (orcid : String) (groups beamlines props : List String)
    (esafs : List V2UserEsaf) : Except PyError V2UserGroupDetails :=
  match uidIntField (orNone body.LBNLID) with
  | .error e => .error e
  | .ok uidv =>
    .ok { uid := uidv, given_name := orNone body.FirstName,
          family_name := orNone body.LastName,
          current_institution := orNone body.Institution,
          current_email := orNone (Option.join body.OrgEmail),
          orcid := orcid, groups := groups,
          beamlines := beamlines, proposals := props,
          esafs := esafs }

/-- v2_get_user_groupdetails of alshub/service.py after a successful person
lookup: OrgEmail is subscripted directly (KeyError when absent), the staff
beamlines seed the group set, proposals are merged, and when the ESAF list
is nonempty the ProposalFriendlyId comprehension is merged and the per-ESAF
records are built. -/
def v2_rest (admins : List (String × List String)) (env : Env) (orcid : String)
    (body : PersonResponse) : List Endpoint × Except PyError V2UserGroupDetails :=
  match body.OrgEmail with
  | none => ([.person], .error (.keyError "OrgEmail"))
  | some email =>
    match get_staff_beamlines admins env.roles email with
    | .error e => ([.person, .roles], .error e)
    | .ok beamlines =>
      match get_user_proposals env.proposals with
      | .error e => ([.person, .roles, .proposals], .error e)
      | .ok props =>
        match get_user_esafs env.esaf with
        | .error e => ([.person, .roles, .proposals, .esaf], .error e)
        | .ok objs =>
          if objs.isEmpty then
            ([.person, .roles, .proposals, .esaf],
             mkV2 body orcid (updateS (updateS [] beamlines) props) beamlines props [])
          else
            match esafIds objs with
            | .error e => ([.person, .roles, .proposals, .esaf], .error e)
            | .ok eids =>
              match processEsafs orcid objs with
              | .error e => ([.person, .roles, .proposals, .esaf], .error e)
              | .ok entries =>
                ([.person, .roles, .proposals, .esaf],
                 mkV2 body orcid (updateS (updateS (updateS [] beamlines) props) eids)
                   beamlines props entries)

/-- v2_get_user_groupdetails of alshub/service.py, returning the endpoints
contacted (in order) and the result or raised exception. -/
def v2_get_user_groupdetails (admins : List (String × List String)) (env : Env)
    (orcid : String) : List Endpoint × Except PyError V2UserGroupDetails :=
  match personStep env.person "or" orcid with
  | .error e => ([.person], .error e)
  | .ok body => v2_rest admins env orcid body

/-- Modelled from the spec: the Sandbox Fixture List lookup of section 4.3
and step 1 of get_user, whose implementation is not part of the sources
under src (only the is_orcid_sandbox flag declaration is): when the adapter
was constructed in sandbox mode and the identifier type is orcid, a linear
scan returns the first fixture whose orcid field equals the requested
identifier, with no network call; on no match, or when sandbox mode is off
or the identifier type is not orcid, the lookup falls through to the normal
remote get_user path. -/
def sandbox_get_user (is_orcid_sandbox : Bool) (fixtures : List User)
    (admins : List (String × List String)) (env : Env) (id : String)
    (id_type : IDType) (fetch_groups : Bool) : List Endpoint × Except PyError User :=
  if is_orcid_sandbox && id_type = IDType.orcid then
    match fixtures.find? (fun u => u.orcid == id) with
    | some u => ([], .ok u)
    | none => get_user admins env id id_type fetch_groups
  else get_user admins env id id_type fetch_groups

/-! ### Helper lemmas about the set-as-list operations -/

theorem updateS_nil (s : List String) : updateS s [] = s := rfl

theorem updateS_cons (s : List String) (x : String) (l : List String) :
    updateS s (x :: l) = updateS (s.insert x) l := rfl

theorem toFinset_listInsert (s : List String) (x : String) :
    (s.insert x).toFinset = insert x s.toFinset := by
  by_cases h : x ∈ s
  · rw [List.insert_of_mem h, Finset.insert_eq_self.mpr (List.mem_toFinset.mpr h)]
  · rw [List.insert_of_not_mem h, List.toFinset_cons]

theorem updateS_toFinset (l s : List String) :
    (updateS s l).toFinset = s.toFinset ∪ l.toFinset := by
  induction l generalizing s with
  | nil => simp [updateS_nil]
  | cons x l ih =>
    rw [updateS_cons, ih, toFinset_listInsert, List.toFinset_cons]
    ext a
    simp only [Finset.mem_union, Finset.mem_insert]
    tauto

theorem updateS_nodup (l : List String) (s : List String) (h : s.Nodup) :
    (updateS s l).Nodup := by
  induction l generalizing s with
  | nil => exact h
  | cons x l ih => exact ih _ (List.Nodup.insert h)

/-! ### Which exceptions each function can raise -/

theorem rolesToGroupsAux_error (approval acc : List String)
    (brs : List (List (String × List String))) (e : PyError)
    (h : rolesToGroupsAux approval acc brs = .error e) : e = .indexError := by
  induction brs generalizing acc with
  | nil => simp [rolesToGroupsAux] at h
  | cons br rest ih =>
    match br with
    | [] =>
      simp only [rolesToGroupsAux, Except.error.injEq] at h
      exact h.symm
    | (bid, roleList) :: tl => exact ih _ h

theorem get_staff_beamlines_error (admins : List (String × List String))
    (rolesOut : HttpOutcome (Option RolesBody)) (email : Option String) (e : PyError)
    (h : get_staff_beamlines admins rolesOut email = .error e) :
    e = .uncaughtHttpException ∨ e = .indexError := by
  match rolesOut with
  | .exn =>
    simp only [get_staff_beamlines, Except.error.injEq] at h
    exact Or.inl h.symm
  | .resp status content =>
    simp only [get_staff_beamlines] at h
    split at h
    · exact absurd h (by simp)
    · match content with
      | none => exact absurd h (by simp)
      | some body =>
        simp only at h
        match hbr : body.beamlineRoles with
        | none => rw [hbr] at h; exact absurd h (by simp)
        | some brs =>
          rw [hbr] at h
          simp only at h
          split at h
          · exact absurd h (by simp)
          · split at h
            · rename_i er her
              cases h
              exact Or.inr (rolesToGroupsAux_error _ _ _ _ her)
            · exact absurd h (by simp)

theorem get_user_proposals_error (out : HttpOutcome ProposalsBody) (e : PyError)
    (h : get_user_proposals out = .error e) : e = .uncaughtHttpException := by
  match out with
  | .exn =>
    simp only [get_user_proposals, Except.error.injEq] at h
    exact h.symm
  | .resp status body =>
    simp only [get_user_proposals] at h
    split at h
    · exact absurd h (by simp)
    · match hp : body.Proposals with
      | none => rw [hp] at h; exact absurd h (by simp)
      | some ps =>
        rw [hp] at h
        simp only at h
        split at h <;> exact absurd h (by simp)

theorem get_user_esafs_error (out : HttpOutcome (List EsafObj)) (e : PyError)
    (h : get_user_esafs out = .error e) : e = .uncaughtHttpException := by
  match out with
  | .exn =>
    simp only [get_user_esafs, Except.error.injEq] at h
    exact h.symm
  | .resp status body =>
    simp only [get_user_esafs] at h
    split at h
    · exact absurd h (by simp)
    · split at h <;> exact absurd h (by simp)

theorem esafIds_error (objs : List EsafObj) (e : PyError)
    (h : esafIds objs = .error e) : e = .keyError "ProposalFriendlyId" := by
  induction objs with
  | nil => simp [esafIds] at h
  | cons o rest ih =>
    simp only [esafIds] at h
    match ho : o.ProposalFriendlyId with
    | none =>
      rw [ho] at h
      simp only [Except.error.injEq] at h
      exact h.symm
    | some pid =>
      rw [ho] at h
      simp only at h
      split at h
      · rename_i er her
        cases h
        exact ih her
      · exact absurd h (by simp)

theorem mkUser_error (uid gn fn inst em : Option String)
    (groups : Option (List String)) (orc : Option String) (e : PyError)
    (h : mkUser uid gn fn inst em groups orc = .error e) :
    e = .validationError "uid" ∨ e = .validationError "orcid" := by
  match uid with
  | none =>
    simp only [mkUser, Except.error.injEq] at h
    exact Or.inl h.symm
  | some u =>
    match orc with
    | none =>
      simp only [mkUser, Except.error.injEq] at h
      exact Or.inr h.symm
    | some o => simp [mkUser] at h

theorem processEsaf_error (orcid : String) (o : EsafObj) (e : PyError)
    (h : processEsaf orcid o = .error e) : e = .validationError "id" := by
  simp only [processEsaf] at h
  match hf : o.EsafFriendlyId with
  | none =>
    rw [hf] at h
    simp only [Except.error.injEq] at h
    exact h.symm
  | some fid => rw [hf] at h; exact absurd h (by simp)

theorem processEsafs_error (orcid : String) (objs : List EsafObj) (e : PyError)
    (h : processEsafs orcid objs = .error e) : e = .validationError "id" := by
  induction objs with
  | nil => simp [processEsafs] at h
  | cons o rest ih =>
    simp only [processEsafs] at h
    split at h
    · rename_i er her
      cases h
      exact processEsaf_error _ _ _ her
    · split at h
      · rename_i er her
        cases h
        exact ih her
      · exact absurd h (by simp)

theorem mkV2_error (body : PersonResponse) (orcid : String)
    (groups beamlines props : List String) (esafs : List V2UserEsaf) (e : PyError)
    (h : mkV2 body orcid groups beamlines props esafs = .error e) :
    e = .validationError "uid" := by
  simp only [mkV2] at h
  split at h
  · rename_i er her
    cases h
    match ho : orNone body.LBNLID with
    | none => rw [ho] at her; simp [uidIntField] at her
    | some s =>
      rw [ho] at her
      simp only [uidIntField] at her
      split at her
      · exact absurd her (by simp)
      · simp only [Except.error.injEq] at her
        exact her.symm
  · exact absurd h (by simp)

/-- The exceptions the person-lookup step can raise: UserNotFound and the
two CommunicationError shapes. -/
def PersonStepError (e : PyError) : Prop :=
  e = .userNotFound ∨ (∃ u, e = .communicationErrorExn u) ∨
    (∃ s, e = .communicationErrorStatus s)

theorem get_user_rest_error (admins : List (String × List String)) (env : Env)
    (id : String) (idt : IDType) (fetch : Bool) (body : PersonResponse) (e : PyError)
    (h : (get_user_rest admins env id idt fetch body).2 = .error e) :
    e = .keyError "OrgEmail" ∨ e = .keyError "ProposalFriendlyId" ∨
    e = .uncaughtHttpException ∨ e = .indexError ∨
    e = .validationError "uid" ∨ e = .validationError "orcid" := by
  simp only [get_user_rest] at h
  split at h
  · match hoe : body.OrgEmail with
    | none =>
      rw [hoe] at h
      simp only [Except.error.injEq] at h
      exact Or.inl h.symm
    | some email =>
      rw [hoe] at h
      simp only at h
      match hB : get_staff_beamlines admins env.roles email with
      | .error eb =>
        rw [hB] at h
        simp only [Except.error.injEq] at h
        subst h
        rcases get_staff_beamlines_error _ _ _ _ hB with h1 | h1 <;> simp [h1]
      | .ok beamlines =>
        rw [hB] at h
        simp only at h
        split at h
        · match hP : get_user_proposals env.proposals with
          | .error ep =>
            rw [hP] at h
            simp only [Except.error.injEq] at h
            subst h
            simp [get_user_proposals_error _ _ hP]
          | .ok props =>
            rw [hP] at h
            simp only at h
            match hE : get_user_esafs env.esaf with
            | .error ee =>
              rw [hE] at h
              simp only [Except.error.injEq] at h
              subst h
              simp [get_user_esafs_error _ _ hE]
            | .ok objs =>
              rw [hE] at h
              simp only at h
              match hI : esafIds objs with
              | .error ei =>
                rw [hI] at h
                simp only [Except.error.injEq] at h
                subst h
                simp [esafIds_error _ _ hI]
              | .ok eids =>
                rw [hI] at h
                simp only at h
                rcases mkUser_error _ _ _ _ _ _ _ _ h with h1 | h1 <;> simp [h1]
        · rcases mkUser_error _ _ _ _ _ _ _ _ h with h1 | h1 <;> simp [h1]
  · split at h <;>
      (rcases mkUser_error _ _ _ _ _ _ _ _ h with h1 | h1 <;> simp [h1])

theorem v2_rest_error (admins : List (String × List String)) (env : Env)
    (orcid : String) (body : PersonResponse) (e : PyError)
    (h : (v2_rest admins env orcid body).2 = .error e) :
    e = .keyError "OrgEmail" ∨ e = .keyError "ProposalFriendlyId" ∨
    e = .uncaughtHttpException ∨ e = .indexError ∨
    e = .validationError "uid" ∨ e = .validationError "id" := by
  simp only [v2_rest] at h
  match hoe : body.OrgEmail with
  | none =>
    rw [hoe] at h
    simp only [Except.error.injEq] at h
    exact Or.inl h.symm
  | some email =>
    rw [hoe] at h
    simp only at h
    match hB : get_staff_beamlines admins env.roles email with
    | .error eb =>
      rw [hB] at h
      simp only [Except.error.injEq] at h
      subst h
      rcases get_staff_beamlines_error _ _ _ _ hB with h1 | h1 <;> simp [h1]
    | .ok beamlines =>
      rw [hB] at h
      simp only at h
      match hP : get_user_proposals env.proposals with
      | .error ep =>
        rw [hP] at h
        simp only [Except.error.injEq] at h
        subst h
        simp [get_user_proposals_error _ _ hP]
      | .ok props =>
        rw [hP] at h
        simp only at h
        match hE : get_user_esafs env.esaf with
        | .error ee =>
          rw [hE] at h
          simp only [Except.error.injEq] at h
          subst h
          simp [get_user_esafs_error _ _ hE]
        | .ok objs =>
          rw [hE] at h
          simp only at h
          split at h
          · simp [mkV2_error _ _ _ _ _ _ _ h]
          · match hI : esafIds objs with
            | .error ei =>
              rw [hI] at h
              simp only [Except.error.injEq] at h
              subst h
              simp [esafIds_error _ _ hI]
            | .ok eids =>
              rw [hI] at h
              simp only at h
              match hPr : processEsafs orcid objs with
              | .error ep2 =>
                rw [hPr] at h
                simp only [Except.error.injEq] at h
                subst h
                simp [processEsafs_error _ _ _ hPr]
              | .ok entries =>
                rw [hPr] at h
                simp only at h
                simp [mkV2_error _ _ _ _ _ _ _ h]

theorem rest_error_not_person_step (e : PyError)
    (h : e = .keyError "OrgEmail" ∨ e = .keyError "ProposalFriendlyId" ∨
         e = .uncaughtHttpException ∨ e = .indexError ∨
         e = .validationError "uid" ∨ e = .validationError "orcid" ∨
         e = .validationError "id") : ¬ PersonStepError e := by
  rcases h with h | h | h | h | h | h | h <;> subst h <;>
    rintro (h2 | ⟨u, h2⟩ | ⟨s, h2⟩) <;> cases h2

theorem personStep_exn (qp id : String) :
    personStep .exn qp id = .error (.communicationErrorExn (personUrl qp id)) := rfl

theorem personStep_404 (body : PersonResponse) (qp id : String) :
    personStep (.resp 404 body) qp id = .error .userNotFound := rfl

theorem personStep_errStatus (s : Nat) (body : PersonResponse) (qp id : String)
    (h1 : s ≠ 404) (h2 : isError s = true) :
    personStep (.resp s body) qp id = .error (.communicationErrorStatus s) := by
  simp [personStep, h1, h2]

theorem personStep_ok (s : Nat) (body : PersonResponse) (qp id : String)
    (h2 : isError s = false) : personStep (.resp s body) qp id = .ok body := by
  have h1 : s ≠ 404 := by
    intro hs
    subst hs
    exact absurd h2 (by decide)
  simp [personStep, h1, h2]

/-- C1: for every call to get_user or v2_get_user_groupdetails, the
person-lookup response determines the error raised: a transport-level
exception contacting the person endpoint raises CommunicationError carrying
the failing URL, an HTTP 404 raises UserNotFound, any other error-range
status raises CommunicationError, and on a success status neither
UserNotFound nor either CommunicationError shape is raised by the rest of
the operation. -/
theorem claim1_person_lookup_error_classification
    (admins : List (String × List String)) (env : Env) (id : String)
    (idt : IDType) (fetch : Bool) (orc : String) :
    (env.person = .exn →
       (get_user admins env id idt fetch).2 =
         .error (.communicationErrorExn
           (personUrl (if idt = IDType.email then "em" else "or") id)) ∧
       (v2_get_user_groupdetails admins env orc).2 =
         .error (.communicationErrorExn (personUrl "or" orc))) ∧
    (∀ s body, env.person = .resp s body →
       (s = 404 →
          (get_user admins env id idt fetch).2 = .error .userNotFound ∧
          (v2_get_user_groupdetails admins env orc).2 = .error .userNotFound) ∧
       (s ≠ 404 → isError s = true →
          (get_user admins env id idt fetch).2 = .error (.communicationErrorStatus s) ∧
          (v2_get_user_groupdetails admins env orc).2 = .error (.communicationErrorStatus s)) ∧
       (isError s = false →
          (∀ e, (get_user admins env id idt fetch).2 = .error e → ¬ PersonStepError e) ∧
          (∀ e, (v2_get_user_groupdetails admins env orc).2 = .error e → ¬ PersonStepError e))) := by
  constructor
  · intro hp
    constructor
    · simp [get_user, hp, personStep_exn]
    · simp [v2_get_user_groupdetails, hp, personStep_exn]
  · intro s body hp
    refine ⟨?_, ?_, ?_⟩
    · intro h404
      subst h404
      constructor
      · simp [get_user, hp, personStep_404]
      · simp [v2_get_user_groupdetails, hp, personStep_404]
    · intro hne herr
      constructor
      · simp [get_user, hp, personStep_errStatus s body _ _ hne herr]
      · simp [v2_get_user_groupdetails, hp, personStep_errStatus s body _ _ hne herr]
    · intro hok
      constructor
      · intro e he
        rw [get_user, hp, personStep_ok s body _ _ hok] at he
        rcases get_user_rest_error _ _ _ _ _ _ _ he with h | h | h | h | h | h <;>
          exact rest_error_not_person_step e (by tauto)
      · intro e he
        rw [v2_get_user_groupdetails, hp, personStep_ok s body _ _ hok] at he
        rcases v2_rest_error _ _ _ _ _ he with h | h | h | h | h | h <;>
          exact rest_error_not_person_step e (by tauto)

def c1env : Env :=
  { person := .exn, roles := .resp 200 none,
    proposals := .resp 200 {}, esaf := .resp 200 [] }

/-- Witness for C1 at a concrete environment whose person lookup raises a
transport exception. -/
theorem claim1_witness :
    c1env.person = HttpOutcome.exn ∧
    (get_user [] c1env "0000-0001" IDType.orcid true).2 =
      .error (.communicationErrorExn (personUrl "or" "0000-0001")) :=
  ⟨rfl,
   by
     have h := (claim1_person_lookup_error_classification [] c1env "0000-0001"
       IDType.orcid true "0000-0001").1 rfl
     exact h.1⟩

/-- The beamline identifiers the claim describes: for each single-key
Beamline Roles entry, its key when its role list contains Scientist. -/
def claimScientistBeamlines (brs : List (List (String × List String))) : List String :=
  brs.filterMap (fun entry =>
    match entry.head? with
    | some kv => if kv.2.contains "Scientist" then some kv.1 else none
    | none => none)

theorem rolesToGroupsAux_singleKey (brs : List (List (String × List String)))
    (acc : List String) (h : ∀ entry ∈ brs, ∃ k rs, entry = [(k, rs)]) :
    rolesToGroupsAux ALSHUB_APPROVAL_ROLES acc brs =
      .ok (acc ++ claimScientistBeamlines brs) := by
  induction brs generalizing acc with
  | nil => simp [rolesToGroupsAux, claimScientistBeamlines]
  | cons entry rest ih =>
    obtain ⟨k, rs, hent⟩ := h entry (List.mem_cons_self _ _)
    subst hent
    have hrest : ∀ e ∈ rest, ∃ k2 rs2, e = [(k2, rs2)] :=
      fun e he => h e (List.mem_cons_of_mem _ he)
    show rolesToGroupsAux ALSHUB_APPROVAL_ROLES
        (acc ++ (ALSHUB_APPROVAL_ROLES.filter (fun a => rs.contains a)).map
          (fun _ => k)) rest = _
    rw [ih _ hrest]
    by_cases hm : "Scientist" ∈ rs
    · simp [claimScientistBeamlines, ALSHUB_APPROVAL_ROLES, List.filterMap_cons, hm]
    · simp [claimScientistBeamlines, ALSHUB_APPROVAL_ROLES, List.filterMap_cons, hm]

theorem alshub_roles_singleKey (brs : List (List (String × List String)))
    (h : ∀ entry ∈ brs, ∃ k rs, entry = [(k, rs)]) :
    alshub_roles_to_beamline_groups brs ALSHUB_APPROVAL_ROLES =
      .ok (claimScientistBeamlines brs) := by
  rw [alshub_roles_to_beamline_groups, rolesToGroupsAux_singleKey brs [] h]
  rfl

/-- C2: the staff-beamline computation returns exactly the union of the
override beamlines keyed by the email and the beamline identifiers whose
role list contains Scientist; a beamline without Scientist is never added
from the response; on an error status, or when the response has no content,
the result is just the override set. -/
theorem claim2_staff_beamlines (admins : List (String × List String))
    (email : Option String) (s : Nat) (brs : List (List (String × List String)))
    (hsk : ∀ entry ∈ brs, ∃ k rs, entry = [(k, rs)]) :
    (isError s = false →
       ∃ S, get_staff_beamlines admins
              (.resp s (some { beamlineRoles := some brs })) email = .ok S ∧
            S.toFinset =
              (adminBeamlines admins email).toFinset ∪
                (claimScientistBeamlines brs).toFinset) ∧
    (isError s = true → ∀ content,
       get_staff_beamlines admins (.resp s content) email =
         .ok (adminBeamlines admins email)) ∧
    (isError s = false →
       get_staff_beamlines admins (.resp s none) email =
         .ok (adminBeamlines admins email)) ∧
    (∀ em bs, email = some em → em ≠ "" → admins.lookup em = some bs →
       (adminBeamlines admins email).toFinset = bs.toFinset) ∧
    (∀ em, email = some em → admins.lookup em = none →
       adminBeamlines admins email = []) ∧
    (email = none → adminBeamlines admins email = []) := by
  refine ⟨?_, ?_, ?_, ?_, ?_, ?_⟩
  · intro hok
    by_cases hei : brs.isEmpty
    · refine ⟨adminBeamlines admins email, ?_, ?_⟩
      · simp [get_staff_beamlines, hok, hei]
      · have : brs = [] := List.isEmpty_iff.mp hei
        subst this
        simp [claimScientistBeamlines]
    · refine ⟨updateS (adminBeamlines admins email) (claimScientistBeamlines brs), ?_, ?_⟩
      · simp [get_staff_beamlines, hok, hei, alshub_roles_singleKey brs hsk]
      · exact updateS_toFinset _ _
  · intro herr content
    simp [get_staff_beamlines, herr]
  · intro hok
    simp [get_staff_beamlines, hok]
  · intro em bs hem hne hlk
    subst hem
    have hnonempty : ¬ admins.isEmpty := by
      intro habs
      rw [List.isEmpty_iff.mp habs] at hlk
      simp [List.lookup] at hlk
    have ht : truthyS (some em) = true := by
      simp [truthyS, hne]
    simp only [adminBeamlines, ht, hnonempty, Bool.not_false, Bool.and_self,
      Option.getD_some, hlk]
    simp [updateS_toFinset]
  · intro em hem hlk
    subst hem
    simp [adminBeamlines, hlk]
  · intro hem
    subst hem
    simp [adminBeamlines, truthyS]

def c2admins : List (String × List String) := [("x@lbl.gov", ["1.1.1"])]

def c2brs : List (List (String × List String)) :=
  [[("7.3.3", ["Scientist", "Beamline Staff"])], [("5.0.2", ["Beamline Staff"])]]

/-- Witness for C2 at the concrete inputs of the spec's testable properties
5 and 6: overrides for x@lbl.gov plus the Scientist filter. -/
theorem claim2_witness :
    (∀ entry ∈ c2brs, ∃ k rs, entry = [(k, rs)]) ∧
    (∃ S, get_staff_beamlines c2admins
            (.resp 200 (some { beamlineRoles := some c2brs })) (some "x@lbl.gov") =
            .ok S ∧
          S.toFinset =
            (adminBeamlines c2admins (some "x@lbl.gov")).toFinset ∪
              (claimScientistBeamlines c2brs).toFinset) := by
  have hsk : ∀ entry ∈ c2brs, ∃ k rs, entry = [(k, rs)] := by
    intro entry he
    simp only [c2brs, List.mem_cons, List.not_mem_nil, or_false] at he
    rcases he with h | h <;> exact ⟨_, _, h⟩
  exact ⟨hsk,
    (claim2_staff_beamlines c2admins (some "x@lbl.gov") 200 c2brs hsk).1 (by decide)⟩

theorem mkUser_ok (uid gn fn inst em : Option String)
    (groups : Option (List String)) (orc : Option String) (u : User)
    (h : mkUser uid gn fn inst em groups orc = .ok u) :
    u.groups = groups ∧ some u.uid = uid ∧ u.given_name = gn ∧
    u.family_name = fn ∧ u.current_institution = inst ∧
    u.current_email = em ∧ some u.orcid = orc := by
  match uid with
  | none => simp [mkUser] at h
  | some uu =>
    match orc with
    | none => simp [mkUser] at h
    | some oo =>
      simp only [mkUser, Except.ok.injEq] at h
      subst h
      exact ⟨rfl, rfl, rfl, rfl, rfl, rfl, rfl⟩

theorem mkV2_ok (body : PersonResponse) (orcid : String)
    (groups beamlines props : List String) (esafs : List V2UserEsaf)
    (v : V2UserGroupDetails)
    (h : mkV2 body orcid groups beamlines props esafs = .ok v) :
    v.groups = groups ∧ v.beamlines = beamlines ∧ v.proposals = props ∧
    v.esafs = esafs ∧ v.orcid = orcid ∧
    v.given_name = orNone body.FirstName ∧
    v.family_name = orNone body.LastName ∧
    v.current_institution = orNone body.Institution ∧
    v.current_email = orNone (Option.join body.OrgEmail) := by
  simp only [mkV2] at h
  split at h
  · exact absurd h (by simp)
  · simp only [Except.ok.injEq] at h
    subst h
    exact ⟨rfl, rfl, rfl, rfl, rfl, rfl, rfl, rfl, rfl⟩

theorem tripleUpdate_toFinset (B P E : List String) :
    (updateS (updateS (updateS [] B) P) E).toFinset =
      B.toFinset ∪ P.toFinset ∪ E.toFinset := by
  rw [updateS_toFinset, updateS_toFinset, updateS_toFinset]
  simp

theorem tripleUpdate_nodup (B P E : List String) :
    (updateS (updateS (updateS [] B) P) E).Nodup :=
  updateS_nodup _ _ (updateS_nodup _ _ (updateS_nodup _ _ List.nodup_nil))

theorem get_user_rest_truthy_fetch (admins : List (String × List String))
    (env : Env) (id : String) (idt : IDType) (body : PersonResponse)
    (em : Option String) (B P : List String) (objs : List EsafObj) (E : List String)
    (ht : truthyS (localOrcid id idt body) = true)
    (hoe : body.OrgEmail = some em)
    (hB : get_staff_beamlines admins env.roles em = .ok B)
    (hP : get_user_proposals env.proposals = .ok P)
    (hE : get_user_esafs env.esaf = .ok objs)
    (hI : esafIds objs = .ok E) :
    get_user_rest admins env id idt true body =
      ([.person, .roles, .proposals, .esaf],
       mkUser body.LBNLID body.FirstName body.LastName body.Institution
         (Option.join body.OrgEmail)
         (some (updateS (updateS (updateS [] B) P) E)) body.orcid) := by
  simp only [get_user_rest, ht, if_true, hoe, hB, hP, hE, hI]

theorem get_user_rest_truthy_nofetch (admins : List (String × List String))
    (env : Env) (id : String) (idt : IDType) (body : PersonResponse)
    (em : Option String) (B : List String)
    (ht : truthyS (localOrcid id idt body) = true)
    (hoe : body.OrgEmail = some em)
    (hB : get_staff_beamlines admins env.roles em = .ok B) :
    get_user_rest admins env id idt false body =
      ([.person, .roles],
       mkUser body.LBNLID body.FirstName body.LastName body.Institution
         (Option.join body.OrgEmail) none body.orcid) := by
  simp only [get_user_rest, ht, if_true, hoe, hB, Bool.false_eq_true, if_false]

theorem get_user_rest_nontruthy (admins : List (String × List String))
    (env : Env) (id : String) (idt : IDType) (fetch : Bool) (body : PersonResponse)
    (ht : truthyS (localOrcid id idt body) = false) :
    get_user_rest admins env id idt fetch body =
      ([.person],
       mkUser body.LBNLID body.FirstName body.LastName body.Institution
         (Option.join body.OrgEmail) (if fetch then some [] else none) body.orcid) := by
  cases fetch <;> simp only [get_user_rest, ht, Bool.false_eq_true, if_false, if_true]

theorem v2_rest_eval_empty (admins : List (String × List String)) (env : Env)
    (orc : String) (body : PersonResponse) (em : Option String) (B P : List String)
    (hoe : body.OrgEmail = some em)
    (hB : get_staff_beamlines admins env.roles em = .ok B)
    (hP : get_user_proposals env.proposals = .ok P)
    (hE : get_user_esafs env.esaf = .ok []) :
    v2_rest admins env orc body =
      ([.person, .roles, .proposals, .esaf],
       mkV2 body orc (updateS (updateS [] B) P) B P []) := by
  simp only [v2_rest, hoe, hB, hP, hE, List.isEmpty_nil, if_true]

theorem v2_rest_eval_nonempty (admins : List (String × List String)) (env : Env)
    (orc : String) (body : PersonResponse) (em : Option String) (B P : List String)
    (objs : List EsafObj) (E : List String) (entries : List V2UserEsaf)
    (hoe : body.OrgEmail = some em)
    (hB : get_staff_beamlines admins env.roles em = .ok B)
    (hP : get_user_proposals env.proposals = .ok P)
    (hE : get_user_esafs env.esaf = .ok objs)
    (hne : objs.isEmpty = false)
    (hI : esafIds objs = .ok E)
    (hPr : processEsafs orc objs = .ok entries) :
    v2_rest admins env orc body =
      ([.person, .roles, .proposals, .esaf],
       mkV2 body orc (updateS (updateS (updateS [] B) P) E) B P entries) := by
  simp only [v2_rest, hoe, hB, hP, hE, hne, Bool.false_eq_true, if_false, hI, hPr]

/-- C3: for every successful lookup with groups fetched, the groups list of
the returned record equals, as a set, the union of staff beamlines,
proposal identifiers and ESAF ProposalFriendlyId values, and has no
duplicate entries. -/
theorem claim3_groups_union_nodup (admins : List (String × List String))
    (env : Env) (id : String) (idt : IDType) (orc : String) (s : Nat)
    (body : PersonResponse) (em : Option String) (B P : List String)
    (objs : List EsafObj) (E : List String)
    (hp : env.person = .resp s body) (hok : isError s = false)
    (hoe : body.OrgEmail = some em)
    (hB : get_staff_beamlines admins env.roles em = .ok B)
    (hP : get_user_proposals env.proposals = .ok P)
    (hE : get_user_esafs env.esaf = .ok objs)
    (hI : esafIds objs = .ok E) :
    (∀ u g, truthyS (localOrcid id idt body) = true →
       (get_user admins env id idt true).2 = .ok u → u.groups = some g →
       g.Nodup ∧ g.toFinset = B.toFinset ∪ P.toFinset ∪ E.toFinset) ∧
    (∀ v, (v2_get_user_groupdetails admins env orc).2 = .ok v →
       v.groups.Nodup ∧ v.groups.toFinset = B.toFinset ∪ P.toFinset ∪ E.toFinset) := by
  constructor
  · intro u g ht hu hg
    rw [get_user, hp, personStep_ok s body _ _ hok] at hu
    simp only at hu
    rw [get_user_rest_truthy_fetch admins env id idt body em B P objs E ht hoe hB hP hE hI] at hu
    simp only at hu
    have hfields := mkUser_ok _ _ _ _ _ _ _ _ hu
    rw [hfields.1] at hg
    cases hg
    exact ⟨tripleUpdate_nodup B P E, tripleUpdate_toFinset B P E⟩
  · intro v hv
    rw [v2_get_user_groupdetails, hp, personStep_ok s body _ _ hok] at hv
    simp only at hv
    by_cases hne : objs.isEmpty
    · have hobjs : objs = [] := List.isEmpty_iff.mp hne
      subst hobjs
      have hEnil : E = [] := by
        simp only [esafIds, Except.ok.injEq] at hI
        exact hI.symm
      subst hEnil
      rw [v2_rest_eval_empty admins env orc body em B P hoe hB hP hE] at hv
      simp only at hv
      have hfields := mkV2_ok _ _ _ _ _ _ _ hv
      rw [hfields.1]
      refine ⟨updateS_nodup _ _ (updateS_nodup _ _ List.nodup_nil), ?_⟩
      rw [updateS_toFinset, updateS_toFinset]
      simp
    · simp only [Bool.not_eq_true] at hne
      match hPr : processEsafs orc objs with
      | .error e2 =>
        simp only [v2_rest, hoe, hB, hP, hE, hne, Bool.false_eq_true, if_false,
          hI, hPr] at hv
        exact absurd hv (by simp)
      | .ok entries =>
        rw [v2_rest_eval_nonempty admins env orc body em B P objs E entries hoe hB hP hE
          hne hI hPr] at hv
        simp only at hv
        have hfields := mkV2_ok _ _ _ _ _ _ _ hv
        rw [hfields.1]
        exact ⟨tripleUpdate_nodup B P E, tripleUpdate_toFinset B P E⟩

def c3body : PersonResponse :=
  { LBNLID := some "123", FirstName := some "Ada",
    OrgEmail := some (some "ada@lbl.gov"), orcid := some "0000-1" }

def c3esaf : EsafObj :=
  { EsafFriendlyId := some "ES-1", ProposalFriendlyId := some "ALS-00123" }

def c3roles : RolesBody :=
  { beamlineRoles :=
      some [[("7.3.3", ["Scientist", "Beamline Staff"])], [("5.0.2", ["Beamline Staff"])]] }

def c3env : Env :=
  { person := .resp 200 c3body,
    roles := .resp 200 (some c3roles),
    proposals := .resp 200 { Proposals := some ["ALS-00123", "ALS-11111"] },
    esaf := .resp 200 [c3esaf] }

def c3user : User :=
  { uid := "123", given_name := some "Ada", current_email := some "ada@lbl.gov",
    groups := some ["ALS-00123", "ALS-11111", "7.3.3"], orcid := "0000-1" }

/-- Witness for C3: a lookup whose proposals endpoint and ESAF endpoint both
report ALS-00123; the groups list carries it once and equals the union as a
set. -/
theorem claim3_witness :
    c3env.person = HttpOutcome.resp 200 c3body ∧
    (get_user [] c3env "0000-1" IDType.orcid true).2 = .ok c3user ∧
    c3user.groups = some ["ALS-00123", "ALS-11111", "7.3.3"] ∧
    (["ALS-00123", "ALS-11111", "7.3.3"].Nodup ∧
     ["ALS-00123", "ALS-11111", "7.3.3"].toFinset =
       ["7.3.3"].toFinset ∪ ["ALS-11111", "ALS-00123"].toFinset ∪
         ["ALS-00123"].toFinset) :=
  ⟨rfl, rfl, rfl,
   (claim3_groups_union_nodup [] c3env "0000-1" IDType.orcid "0000-1" 200 c3body
      (some "ada@lbl.gov") ["7.3.3"] ["ALS-11111", "ALS-00123"] [c3esaf] ["ALS-00123"]
      rfl rfl rfl rfl rfl rfl rfl).1 c3user ["ALS-00123", "ALS-11111", "7.3.3"]
      rfl rfl rfl⟩

def c4body : PersonResponse :=
  { LBNLID := some "321", FirstName := some "Eva",
    OrgEmail := some (some "eva@lbl.gov"), orcid := some "0000-4" }

def c4env : Env :=
  { person := .resp 200 c4body, roles := .resp 200 none,
    proposals := .exn, esaf := .resp 200 [] }

/-- Counterexample to C4: a transport-level exception while contacting the
proposals endpoint is not caught anywhere, so the whole lookup raises the
client library's exception instead of succeeding with an empty proposals
contribution. -/
theorem claim4_counterexample :
    (get_user [] c4env "0000-4" IDType.orcid true).2 =
      .error PyError.uncaughtHttpException := rfl

/-- C4 as amended: an error-range HTTP status from the proposals, roles or
ESAF endpoint is non-fatal and leaves that contribution empty, and such a
lookup still succeeds with the other contributions; but a transport-level
exception during the proposals call propagates and aborts the lookup. -/
theorem claim4_amended :
    (∀ sp pb, isError sp = true → get_user_proposals (.resp sp pb) = .ok []) ∧
    (∀ se eb, isError se = true → get_user_esafs (.resp se eb) = .ok []) ∧
    (∀ admins sr rc em, isError sr = true →
       get_staff_beamlines admins (.resp sr rc) em = .ok (adminBeamlines admins em)) ∧
    (∀ admins env id s body em uidv ov sr rc sp pb se eb,
       env.person = .resp s body → isError s = false → id ≠ "" →
       body.OrgEmail = some em → body.LBNLID = some uidv → body.orcid = some ov →
       env.roles = .resp sr rc → isError sr = true →
       env.proposals = .resp sp pb → isError sp = true →
       env.esaf = .resp se eb → isError se = true →
       ∃ g, (get_user admins env id IDType.orcid true).2 =
              .ok { uid := uidv, given_name := body.FirstName,
                    family_name := body.LastName,
                    current_institution := body.Institution,
                    current_email := Option.join body.OrgEmail,
                    groups := some g, orcid := ov } ∧
            g.toFinset = (adminBeamlines admins em).toFinset) ∧
    (∀ admins env id s body em B,
       env.person = .resp s body → isError s = false → id ≠ "" →
       body.OrgEmail = some em →
       get_staff_beamlines admins env.roles em = .ok B →
       env.proposals = .exn →
       (get_user admins env id IDType.orcid true).2 =
         .error .uncaughtHttpException) := by
  refine ⟨?_, ?_, ?_, ?_, ?_⟩
  · intro sp pb h
    simp [get_user_proposals, h]
  · intro se eb h
    simp [get_user_esafs, h]
  · intro admins sr rc em h
    simp [get_staff_beamlines, h]
  · intro admins env id s body em uidv ov sr rc sp pb se eb
      hp hok hid hoe hL ho hr hre hpp hpe he hee
    have ht : truthyS (localOrcid id IDType.orcid body) = true := by
      simp [localOrcid, truthyS, hid]
    have hB : get_staff_beamlines admins env.roles em = .ok (adminBeamlines admins em) := by
      rw [hr]
      simp [get_staff_beamlines, hre]
    have hPemp : get_user_proposals env.proposals = .ok [] := by
      rw [hpp]
      simp [get_user_proposals, hpe]
    have hEemp : get_user_esafs env.esaf = .ok [] := by
      rw [he]
      simp [get_user_esafs, hee]
    refine ⟨updateS [] (adminBeamlines admins em), ?_, ?_⟩
    · rw [get_user, hp, personStep_ok s body _ _ hok]
      simp only
      rw [get_user_rest_truthy_fetch admins env id IDType.orcid body em
        (adminBeamlines admins em) [] [] [] ht hoe hB hPemp hEemp rfl]
      simp only [updateS_nil]
      rw [hL, ho]
      simp [mkUser]
    · rw [updateS_toFinset]
      simp
  · intro admins env id s body em B hp hok hid hoe hB hpx
    have ht : truthyS (localOrcid id IDType.orcid body) = true := by
      simp [localOrcid, truthyS, hid]
    have hPexn : get_user_proposals env.proposals = .error .uncaughtHttpException := by
      rw [hpx]
      rfl
    rw [get_user, hp, personStep_ok s body _ _ hok]
    simp only
    simp only [get_user_rest, ht, if_true, hoe, hB, hPexn]

/-- Witness for C4's amended statement: all three enrichment endpoints
return HTTP 500, the person lookup succeeds, and the lookup still returns a
record whose groups are exactly the override beamlines. -/
theorem claim4_witness :
    isError 500 = true ∧
    (∃ g, (get_user [("eva@lbl.gov", ["1.1.1"])]
             { person := .resp 200 c4body, roles := .resp 500 none,
               proposals := .resp 500 {}, esaf := .resp 500 [] }
             "0000-4" IDType.orcid true).2 =
            .ok { uid := "321", given_name := some "Eva",
                  family_name := none, current_institution := none,
                  current_email := some "eva@lbl.gov",
                  groups := some g, orcid := "0000-4" } ∧
          g.toFinset =
            (adminBeamlines [("eva@lbl.gov", ["1.1.1"])] (some "eva@lbl.gov")).toFinset) :=
  ⟨rfl,
   claim4_amended.2.2.2.1 [("eva@lbl.gov", ["1.1.1"])]
     { person := .resp 200 c4body, roles := .resp 500 none,
       proposals := .resp 500 {}, esaf := .resp 500 [] }
     "0000-4" 200 c4body (some "eva@lbl.gov") "321" "0000-4" 500 none 500 {} 500 []
     rfl rfl (by decide) rfl rfl rfl rfl rfl rfl rfl rfl rfl⟩

def c5body : PersonResponse :=
  { LBNLID := some "777", FirstName := some "Zed",
    OrgEmail := some (some "zed@lbl.gov"), orcid := some "0000-5" }

def c5roles : RolesBody :=
  { beamlineRoles := some [[("7.3.3", ["Scientist"])]] }

def c5env : Env :=
  { person := .resp 200 c5body, roles := .resp 200 (some c5roles),
    proposals := .exn, esaf := .exn }

/-- C5: evaluation of get_user with fetch_groups = false.  The staff
beamlines are computed (the roles endpoint is contacted and yields 7.3.3)
and no proposals or ESAF call is made (those outcomes are transport
exceptions, which would abort the lookup if contacted), but the returned
record's groups field is None: the merged beamline groups are discarded,
contradicting the claim that groups reflects the staff-beamline merge. -/
theorem claim5_code_eval :
    get_user [] c5env "0000-5" IDType.orcid false =
      ([Endpoint.person, Endpoint.roles],
       .ok { uid := "777", given_name := some "Zed",
             current_email := some "zed@lbl.gov",
             groups := none, orcid := "0000-5" }) ∧
    get_staff_beamlines [] c5env.roles (some "zed@lbl.gov") = .ok ["7.3.3"] :=
  ⟨rfl, rfl⟩

theorem get_user_rest_ok_fields (admins : List (String × List String)) (env : Env)
    (id : String) (idt : IDType) (fetch : Bool) (body : PersonResponse) (u : User)
    (h : (get_user_rest admins env id idt fetch body).2 = .ok u) :
    some u.uid = body.LBNLID ∧ u.given_name = body.FirstName ∧
    u.family_name = body.LastName ∧ u.current_institution = body.Institution ∧
    u.current_email = Option.join body.OrgEmail ∧ some u.orcid = body.orcid := by
  simp only [get_user_rest] at h
  split at h
  · match hoe : body.OrgEmail with
    | none =>
      rw [hoe] at h
      exact absurd h (by simp)
    | some email =>
      rw [hoe] at h
      simp only at h
      match hB : get_staff_beamlines admins env.roles email with
      | .error eb =>
        rw [hB] at h
        exact absurd h (by simp)
      | .ok beamlines =>
        rw [hB] at h
        simp only at h
        split at h
        · match hP : get_user_proposals env.proposals with
          | .error ep =>
            rw [hP] at h
            exact absurd h (by simp)
          | .ok props =>
            rw [hP] at h
            simp only at h
            match hE : get_user_esafs env.esaf with
            | .error ee =>
              rw [hE] at h
              exact absurd h (by simp)
            | .ok objs =>
              rw [hE] at h
              simp only at h
              match hI : esafIds objs with
              | .error ei =>
                rw [hI] at h
                exact absurd h (by simp)
              | .ok eids =>
                rw [hI] at h
                simp only at h
                have f := mkUser_ok _ _ _ _ _ _ _ _ h
                exact ⟨f.2.1, f.2.2.1, f.2.2.2.1, f.2.2.2.2.1, f.2.2.2.2.2.1,
                  f.2.2.2.2.2.2⟩
        · have f := mkUser_ok _ _ _ _ _ _ _ _ h
          exact ⟨f.2.1, f.2.2.1, f.2.2.2.1, f.2.2.2.2.1, f.2.2.2.2.2.1,
            f.2.2.2.2.2.2⟩
  · split at h <;>
      · have f := mkUser_ok _ _ _ _ _ _ _ _ h
        exact ⟨f.2.1, f.2.2.1, f.2.2.2.1, f.2.2.2.2.1, f.2.2.2.2.2.1,
          f.2.2.2.2.2.2⟩

/-- C6 as amended: for every successful get_user call the identity fields
are mapped LBNLID, FirstName, LastName, Institution, OrgEmail onto uid,
given_name, family_name, current_institution, current_email, and the orcid
field is taken solely from the response's orcid field: there is no fallback
to the input identifier, so when the response lacks an orcid no User is
returned at all (construction fails on the required field). -/
theorem claim6_amended (admins : List (String × List String)) (env : Env)
    (id : String) (idt : IDType) (fetch : Bool) (s : Nat) (body : PersonResponse)
    (hp : env.person = .resp s body) (hok : isError s = false) :
    (∀ u, (get_user admins env id idt fetch).2 = .ok u →
       some u.uid = body.LBNLID ∧ u.given_name = body.FirstName ∧
       u.family_name = body.LastName ∧ u.current_institution = body.Institution ∧
       u.current_email = Option.join body.OrgEmail ∧ some u.orcid = body.orcid) ∧
    (body.orcid = none → ∀ u, (get_user admins env id idt fetch).2 ≠ .ok u) := by
  have hmain : ∀ u, (get_user admins env id idt fetch).2 = .ok u →
      some u.uid = body.LBNLID ∧ u.given_name = body.FirstName ∧
      u.family_name = body.LastName ∧ u.current_institution = body.Institution ∧
      u.current_email = Option.join body.OrgEmail ∧ some u.orcid = body.orcid := by
    intro u hu
    rw [get_user, hp, personStep_ok s body _ _ hok] at hu
    simp only at hu
    exact get_user_rest_ok_fields admins env id idt fetch body u hu
  refine ⟨hmain, ?_⟩
  intro ho u habs
  have f := (hmain u habs).2.2.2.2.2
  rw [ho] at f
  cases f

def c6body : PersonResponse :=
  { LBNLID := some "42", FirstName := some "Ann",
    OrgEmail := some (some "ann@lbl.gov"), orcid := none }

def c6env : Env :=
  { person := .resp 200 c6body, roles := .resp 200 none,
    proposals := .resp 200 {}, esaf := .resp 200 [] }

/-- Counterexample to C6: a lookup keyed by orcid whose person response
lacks the orcid field does not fall back to the input identifier — the User
construction fails on the required orcid field and the call raises a
validation error instead of returning a record. -/
theorem claim6_counterexample :
    (get_user [] c6env "0000-0002-0000-0001" IDType.orcid true).2 =
      .error (.validationError "orcid") ∧
    c6body.orcid = none := ⟨rfl, rfl⟩

def c6wbody : PersonResponse :=
  { LBNLID := some "42", FirstName := some "Ann", LastName := some "Lee",
    Institution := some "LBNL", OrgEmail := some (some "ann@lbl.gov"),
    orcid := some "0000-6" }

def c6wenv : Env :=
  { person := .resp 200 c6wbody, roles := .resp 200 none,
    proposals := .resp 200 {}, esaf := .resp 200 [] }

/-- Witness for C6's amended statement at a successful concrete lookup. -/
theorem claim6_witness :
    c6wenv.person = HttpOutcome.resp 200 c6wbody ∧
    (get_user [] c6wenv "0000-6" IDType.orcid true).2 =
      .ok { uid := "42", given_name := some "Ann", family_name := some "Lee",
            current_institution := some "LBNL", current_email := some "ann@lbl.gov",
            groups := some [], orcid := "0000-6" } ∧
    (some "42" = c6wbody.LBNLID ∧ some "Ann" = c6wbody.FirstName ∧
     some "Lee" = c6wbody.LastName ∧ some "LBNL" = c6wbody.Institution ∧
     some "ann@lbl.gov" = Option.join c6wbody.OrgEmail ∧
     some "0000-6" = c6wbody.orcid) := by
  refine ⟨rfl, rfl, ?_⟩
  have f := (claim6_amended [] c6wenv "0000-6" IDType.orcid true 200 c6wbody rfl rfl).1
    { uid := "42", given_name := some "Ann", family_name := some "Lee",
      current_institution := some "LBNL", current_email := some "ann@lbl.gov",
      groups := some [], orcid := "0000-6" } rfl
  exact f

theorem processEsaf_ok (orcid : String) (e : EsafObj) (v : V2UserEsaf)
    (h : processEsaf orcid e = .ok v) :
    v.roles = esafRoles orcid e ∧ some v.id = e.EsafFriendlyId ∧
    v.title = e.Title ∧ v.proposal_id = e.ProposalFriendlyId ∧
    v.beamline_id = e.Beamline ∧
    v.earliest_start = (foldEarliest e.ScheduledEvents).map isoformatLA ∧
    v.latest_end = (foldLatest e.ScheduledEvents).map isoformatLA := by
  simp only [processEsaf] at h
  match hf : e.EsafFriendlyId with
  | none => rw [hf] at h; exact absurd h (by simp)
  | some fid =>
    rw [hf] at h
    simp only [Except.ok.injEq] at h
    subst h
    exact ⟨rfl, rfl, rfl, rfl, rfl, rfl, rfl⟩

theorem participantScan_cases (orcid : String) (ps : List EsafPerson) :
    (participantScan orcid ps = ["participant"] ∧ ∃ p ∈ ps, p.Orcid = some orcid) ∨
    (participantScan orcid ps = [] ∧ ¬ ∃ p ∈ ps, p.Orcid = some orcid) := by
  induction ps with
  | nil =>
    right
    simp [participantScan]
  | cons p rest ih =>
    by_cases hp : p.Orcid = some orcid
    · left
      exact ⟨by simp [participantScan, hp], ⟨p, List.mem_cons_self _ _, hp⟩⟩
    · rcases ih with ⟨h1, p2, hp2, hpo⟩ | ⟨h1, hno⟩
      · left
        exact ⟨by simp [participantScan, hp, h1],
          ⟨p2, List.mem_cons_of_mem _ hp2, hpo⟩⟩
      · right
        refine ⟨by simp [participantScan, hp, h1], ?_⟩
        rintro ⟨q, hq, hqo⟩
        rcases List.mem_cons.mp hq with rfl | hq2
        · exact hp hqo
        · exact hno ⟨q, hq2, hqo⟩

theorem piPart_cases (orcid : String) (e : EsafObj) :
    (piPart orcid e = ["pi"] ∧ Option.bind e.PI EsafPerson.Orcid = some orcid) ∨
    (piPart orcid e = [] ∧ ¬ Option.bind e.PI EsafPerson.Orcid = some orcid) := by
  match hpi : e.PI with
  | none =>
    right
    simp [piPart, hpi]
  | some p =>
    by_cases hpo : p.Orcid = some orcid
    · left
      exact ⟨by simp [piPart, hpi, hpo], by simp [hpi, hpo]⟩
    · right
      exact ⟨by simp [piPart, hpi, hpo], by simp [hpi, hpo]⟩

theorem expPart_cases (orcid : String) (e : EsafObj) :
    (expPart orcid e = ["explead"] ∧ Option.bind e.ExpLead EsafPerson.Orcid = some orcid) ∨
    (expPart orcid e = [] ∧ ¬ Option.bind e.ExpLead EsafPerson.Orcid = some orcid) := by
  match hpi : e.ExpLead with
  | none =>
    right
    simp [expPart, hpi]
  | some p =>
    by_cases hpo : p.Orcid = some orcid
    · left
      exact ⟨by simp [expPart, hpi, hpo], by simp [hpi, hpo]⟩
    · right
      exact ⟨by simp [expPart, hpi, hpo], by simp [hpi, hpo]⟩

/-- C7: for every ESAF processed by the v2 operation, the roles list holds
"pi" iff PI.Orcid equals the requested orcid, "explead" iff ExpLead.Orcid
equals it, "participant" (at most once, the scan stops at the first match)
iff some Participants entry has that Orcid; several matching conditions
yield all the corresponding roles. -/
theorem claim7_esaf_roles (orcid : String) (e : EsafObj) (v : V2UserEsaf)
    (h : processEsaf orcid e = .ok v) :
    ("pi" ∈ v.roles ↔ Option.bind e.PI EsafPerson.Orcid = some orcid) ∧
    ("explead" ∈ v.roles ↔ Option.bind e.ExpLead EsafPerson.Orcid = some orcid) ∧
    ("participant" ∈ v.roles ↔ ∃ p ∈ e.Participants, p.Orcid = some orcid) ∧
    v.roles.count "participant" ≤ 1 := by
  rw [(processEsaf_ok orcid e v h).1, esafRoles]
  rcases piPart_cases orcid e with ⟨hpi, hpic⟩ | ⟨hpi, hpic⟩ <;>
    rcases expPart_cases orcid e with ⟨hex, hexc⟩ | ⟨hex, hexc⟩ <;>
    rcases participantScan_cases orcid e.Participants with ⟨hsc, hscc⟩ | ⟨hsc, hscc⟩ <;>
    rw [hpi, hex, hsc] <;>
    refine ⟨?_, ?_, ?_, ?_⟩ <;>
    simp [hpic, hexc, hscc]

def c7esaf : EsafObj :=
  { EsafFriendlyId := some "ES-7", PI := some { Orcid := some "0000-7" },
    ExpLead := some { Orcid := some "0000-8" },
    Participants := [{ Orcid := some "0000-9" }, { Orcid := some "0000-7" }] }

def c7entry : V2UserEsaf :=
  { roles := ["pi", "participant"], id := "ES-7" }

/-- Witness for C7: an ESAF whose PI and one participant carry the
requested orcid yields both roles. -/
theorem claim7_witness :
    processEsaf "0000-7" c7esaf = .ok c7entry ∧
    (("pi" ∈ c7entry.roles ↔ Option.bind c7esaf.PI EsafPerson.Orcid = some "0000-7") ∧
     ("explead" ∈ c7entry.roles ↔
        Option.bind c7esaf.ExpLead EsafPerson.Orcid = some "0000-7") ∧
     ("participant" ∈ c7entry.roles ↔
        ∃ p ∈ c7esaf.Participants, p.Orcid = some "0000-7") ∧
     c7entry.roles.count "participant" ≤ 1) :=
  ⟨rfl, claim7_esaf_roles "0000-7" c7esaf c7entry rfl⟩

theorem parsedStarts_cons_none (ev : EsafEvent) (rest : List EsafEvent)
    (hd : ev.StartDate.bind parse_esaf_date = none) :
    parsedStarts (ev :: rest) = parsedStarts rest := by
  simp [parsedStarts, List.filterMap_cons, hd]

theorem parsedStarts_cons_some (ev : EsafEvent) (rest : List EsafEvent) (d : EsafDate)
    (hd : ev.StartDate.bind parse_esaf_date = some d) :
    parsedStarts (ev :: rest) = d :: parsedStarts rest := by
  simp [parsedStarts, List.filterMap_cons, hd]

theorem parsedEnds_cons_none (ev : EsafEvent) (rest : List EsafEvent)
    (hd : ev.EndDate.bind parse_esaf_date = none) :
    parsedEnds (ev :: rest) = parsedEnds rest := by
  simp [parsedEnds, List.filterMap_cons, hd]

theorem parsedEnds_cons_some (ev : EsafEvent) (rest : List EsafEvent) (d : EsafDate)
    (hd : ev.EndDate.bind parse_esaf_date = some d) :
    parsedEnds (ev :: rest) = d :: parsedEnds rest := by
  simp [parsedEnds, List.filterMap_cons, hd]

theorem earliestAux_spec (evs : List EsafEvent) (acc : Option EsafDate) :
    (earliestAux evs acc = none → acc = none ∧ parsedStarts evs = []) ∧
    (∀ m, earliestAux evs acc = some m →
       (m ∈ parsedStarts evs ∨ acc = some m) ∧
       (∀ x ∈ parsedStarts evs, m.key ≤ x.key) ∧
       (∀ a, acc = some a → m.key ≤ a.key)) := by
  induction evs generalizing acc with
  | nil =>
    constructor
    · intro h
      exact ⟨h, rfl⟩
    · intro m h
      refine ⟨Or.inr h, ?_, ?_⟩
      · intro x hx
        simp [parsedStarts] at hx
      · intro a ha
        rw [ha] at h
        simp only [earliestAux, Option.some.injEq] at h
        rw [h]
  | cons ev rest ih =>
    match hd : ev.StartDate.bind parse_esaf_date with
    | none =>
      have hnext : earliestAux (ev :: rest) acc = earliestAux rest acc := by
        simp [earliestAux, hd]
      rw [hnext, parsedStarts_cons_none ev rest hd]
      exact ih acc
    | some d =>
      match acc with
      | none =>
        have hnext : earliestAux (ev :: rest) none = earliestAux rest (some d) := by
          simp [earliestAux, hd]
        rw [hnext, parsedStarts_cons_some ev rest d hd]
        constructor
        · intro h
          have := (ih (some d)).1 h
          cases this.1
        · intro m h
          have hih := (ih (some d)).2 m h
          have hmd : m.key ≤ d.key := hih.2.2 d rfl
          refine ⟨?_, ?_, ?_⟩
          · rcases hih.1 with hmem | heq
            · exact Or.inl (List.mem_cons_of_mem _ hmem)
            · cases heq
              exact Or.inl (List.mem_cons_self _ _)
          · intro x hx
            rcases List.mem_cons.mp hx with rfl | hx2
            · exact hmd
            · exact hih.2.1 x hx2
          · intro a ha
            cases ha
      | some cur =>
        by_cases hlt : d.key < cur.key
        · have hnext : earliestAux (ev :: rest) (some cur) = earliestAux rest (some d) := by
            simp [earliestAux, hd, hlt]
          rw [hnext, parsedStarts_cons_some ev rest d hd]
          constructor
          · intro h
            have := (ih (some d)).1 h
            cases this.1
          · intro m h
            have hih := (ih (some d)).2 m h
            have hmd : m.key ≤ d.key := hih.2.2 d rfl
            refine ⟨?_, ?_, ?_⟩
            · rcases hih.1 with hmem | heq
              · exact Or.inl (List.mem_cons_of_mem _ hmem)
              · cases heq
                exact Or.inl (List.mem_cons_self _ _)
            · intro x hx
              rcases List.mem_cons.mp hx with rfl | hx2
              · exact hmd
              · exact hih.2.1 x hx2
            · intro a ha
              cases ha
              exact le_trans hmd (le_of_lt hlt)
        · have hnext : earliestAux (ev :: rest) (some cur) = earliestAux rest (some cur) := by
            simp [earliestAux, hd, hlt]
          rw [hnext, parsedStarts_cons_some ev rest d hd]
          constructor
          · intro h
            have := (ih (some cur)).1 h
            cases this.1
          · intro m h
            have hih := (ih (some cur)).2 m h
            have hmc : m.key ≤ cur.key := hih.2.2 cur rfl
            have hcd : cur.key ≤ d.key := Nat.le_of_not_lt hlt
            refine ⟨?_, ?_, ?_⟩
            · rcases hih.1 with hmem | heq
              · exact Or.inl (List.mem_cons_of_mem _ hmem)
              · exact Or.inr heq
            · intro x hx
              rcases List.mem_cons.mp hx with rfl | hx2
              · exact le_trans hmc hcd
              · exact hih.2.1 x hx2
            · intro a ha
              cases ha
              exact hmc

theorem latestAux_spec (evs : List EsafEvent) (acc : Option EsafDate) :
    (latestAux evs acc = none → acc = none ∧ parsedEnds evs = []) ∧
    (∀ m, latestAux evs acc = some m →
       (m ∈ parsedEnds evs ∨ acc = some m) ∧
       (∀ x ∈ parsedEnds evs, x.key ≤ m.key) ∧
       (∀ a, acc = some a → a.key ≤ m.key)) := by
  induction evs generalizing acc with
  | nil =>
    constructor
    · intro h
      exact ⟨h, rfl⟩
    · intro m h
      refine ⟨Or.inr h, ?_, ?_⟩
      · intro x hx
        simp [parsedEnds] at hx
      · intro a ha
        rw [ha] at h
        simp only [latestAux, Option.some.injEq] at h
        rw [h]
  | cons ev rest ih =>
    match hd : ev.EndDate.bind parse_esaf_date with
    | none =>
      have hnext : latestAux (ev :: rest) acc = latestAux rest acc := by
        simp [latestAux, hd]
      rw [hnext, parsedEnds_cons_none ev rest hd]
      exact ih acc
    | some d =>
      match acc with
      | none =>
        have hnext : latestAux (ev :: rest) none = latestAux rest (some d) := by
          simp [latestAux, hd]
        rw [hnext, parsedEnds_cons_some ev rest d hd]
        constructor
        · intro h
          have := (ih (some d)).1 h
          cases this.1
        · intro m h
          have hih := (ih (some d)).2 m h
          have hmd : d.key ≤ m.key := hih.2.2 d rfl
          refine ⟨?_, ?_, ?_⟩
          · rcases hih.1 with hmem | heq
            · exact Or.inl (List.mem_cons_of_mem _ hmem)
            · cases heq
              exact Or.inl (List.mem_cons_self _ _)
          · intro x hx
            rcases List.mem_cons.mp hx with rfl | hx2
            · exact hmd
            · exact hih.2.1 x hx2
          · intro a ha
            cases ha
      | some cur =>
        by_cases hlt : cur.key < d.key
        · have hnext : latestAux (ev :: rest) (some cur) = latestAux rest (some d) := by
            simp [latestAux, hd, hlt]
          rw [hnext, parsedEnds_cons_some ev rest d hd]
          constructor
          · intro h
            have := (ih (some d)).1 h
            cases this.1
          · intro m h
            have hih := (ih (some d)).2 m h
            have hmd : d.key ≤ m.key := hih.2.2 d rfl
            refine ⟨?_, ?_, ?_⟩
            · rcases hih.1 with hmem | heq
              · exact Or.inl (List.mem_cons_of_mem _ hmem)
              · cases heq
                exact Or.inl (List.mem_cons_self _ _)
            · intro x hx
              rcases List.mem_cons.mp hx with rfl | hx2
              · exact hmd
              · exact hih.2.1 x hx2
            · intro a ha
              cases ha
              exact le_trans (le_of_lt hlt) hmd
        · have hnext : latestAux (ev :: rest) (some cur) = latestAux rest (some cur) := by
            simp [latestAux, hd, hlt]
          rw [hnext, parsedEnds_cons_some ev rest d hd]
          constructor
          · intro h
            have := (ih (some cur)).1 h
            cases this.1
          · intro m h
            have hih := (ih (some cur)).2 m h
            have hmc : cur.key ≤ m.key := hih.2.2 cur rfl
            have hdc : d.key ≤ cur.key := Nat.le_of_not_lt hlt
            refine ⟨?_, ?_, ?_⟩
            · rcases hih.1 with hmem | heq
              · exact Or.inl (List.mem_cons_of_mem _ hmem)
              · exact Or.inr heq
            · intro x hx
              rcases List.mem_cons.mp hx with rfl | hx2
              · exact le_trans hdc hmc
              · exact hih.2.1 x hx2
            · intro a ha
              cases ha
              exact hmc

/-- C8: for every ESAF processed by the v2 operation, earliest_start is the
minimum of the parseable StartDate values over all ScheduledEvents entries
(rendered through the Los Angeles formatter) and latest_end the maximum of
the parseable EndDate values; an unparseable string contributes no value,
either field stays absent when no event has a parseable date of that kind,
and date strings never make the processing fail (only a missing
EsafFriendlyId does). -/
theorem claim8_esaf_dates (orcid : String) (e : EsafObj) :
    (∀ v, processEsaf orcid e = .ok v →
       ((v.earliest_start = none ∧ parsedStarts e.ScheduledEvents = []) ∨
        (∃ m, v.earliest_start = some (isoformatLA m) ∧
           m ∈ parsedStarts e.ScheduledEvents ∧
           ∀ x ∈ parsedStarts e.ScheduledEvents, m.key ≤ x.key)) ∧
       ((v.latest_end = none ∧ parsedEnds e.ScheduledEvents = []) ∨
        (∃ m, v.latest_end = some (isoformatLA m) ∧
           m ∈ parsedEnds e.ScheduledEvents ∧
           ∀ x ∈ parsedEnds e.ScheduledEvents, x.key ≤ m.key))) ∧
    ((∃ er, processEsaf orcid e = .error er) ↔ e.EsafFriendlyId = none) := by
  constructor
  · intro v hv
    have hok := processEsaf_ok orcid e v hv
    constructor
    · rw [hok.2.2.2.2.2.1]
      match hfe : foldEarliest e.ScheduledEvents with
      | none =>
        left
        have hsp := (earliestAux_spec e.ScheduledEvents none).1 hfe
        exact ⟨by simp, hsp.2⟩
      | some m =>
        right
        have hsp := (earliestAux_spec e.ScheduledEvents none).2 m hfe
        have hmem : m ∈ parsedStarts e.ScheduledEvents := by
          rcases hsp.1 with h | h
          · exact h
          · cases h
        exact ⟨m, by simp, hmem, hsp.2.1⟩
    · rw [hok.2.2.2.2.2.2]
      match hfl : foldLatest e.ScheduledEvents with
      | none =>
        left
        have hsp := (latestAux_spec e.ScheduledEvents none).1 hfl
        exact ⟨by simp, hsp.2⟩
      | some m =>
        right
        have hsp := (latestAux_spec e.ScheduledEvents none).2 m hfl
        have hmem : m ∈ parsedEnds e.ScheduledEvents := by
          rcases hsp.1 with h | h
          · exact h
          · cases h
        exact ⟨m, by simp, hmem, hsp.2.1⟩
  · constructor
    · rintro ⟨er, her⟩
      match hf : e.EsafFriendlyId with
      | none => rfl
      | some fid => simp [processEsaf, hf] at her
    · intro hf
      exact ⟨.validationError "id", by simp [processEsaf, hf]⟩

def c8esaf : EsafObj :=
  { EsafFriendlyId := some "ES-8",
    ScheduledEvents :=
      [ { StartDate := some "not-a-date", EndDate := some "01/20/2024" },
        { StartDate := some "03/01/2024", EndDate := some "03/05/2024" },
        { StartDate := some "01/15/2024" } ] }

def c8entry : V2UserEsaf :=
  { roles := [], id := "ES-8",
    earliest_start := some "2024-01-15T00:00:00-08:00",
    latest_end := some "2024-03-05T00:00:00-08:00" }

/-- Witness for C8: one unparseable StartDate is skipped while the other
dates still produce the minimum start and maximum end of the spec's date
examples. -/
theorem claim8_witness :
    processEsaf "0000-8" c8esaf = .ok c8entry ∧
    (((c8entry.earliest_start = none ∧ parsedStarts c8esaf.ScheduledEvents = []) ∨
      (∃ m, c8entry.earliest_start = some (isoformatLA m) ∧
         m ∈ parsedStarts c8esaf.ScheduledEvents ∧
         ∀ x ∈ parsedStarts c8esaf.ScheduledEvents, m.key ≤ x.key)) ∧
     ((c8entry.latest_end = none ∧ parsedEnds c8esaf.ScheduledEvents = []) ∨
      (∃ m, c8entry.latest_end = some (isoformatLA m) ∧
         m ∈ parsedEnds c8esaf.ScheduledEvents ∧
         ∀ x ∈ parsedEnds c8esaf.ScheduledEvents, x.key ≤ m.key))) :=
  ⟨rfl, (claim8_esaf_dates "0000-8" c8esaf).1 c8entry rfl⟩

/-- C9 (the sandbox lookup is modelled from the spec, since only the
is_orcid_sandbox flag declaration is part of src): in sandbox mode with an
orcid identifier, a fixture whose orcid matches is returned verbatim with
zero endpoints contacted; with no matching fixture the call falls through
to the normal remote get_user path. -/
theorem claim9_sandbox_shortcircuit (fixtures : List User)
    (admins : List (String × List String)) (env : Env) (id : String) (fetch : Bool) :
    (∀ u, fixtures.find? (fun v => v.orcid == id) = some u →
       sandbox_get_user true fixtures admins env id IDType.orcid fetch = ([], .ok u)) ∧
    (fixtures.find? (fun v => v.orcid == id) = none →
       sandbox_get_user true fixtures admins env id IDType.orcid fetch =
         get_user admins env id IDType.orcid fetch) := by
  constructor
  · intro u hf
    simp [sandbox_get_user, hf]
  · intro hf
    simp [sandbox_get_user, hf]

def c9fix : User :=
  { uid := "sandbox-1", given_name := some "Sandy",
    groups := some ["8.3.2"], orcid := "0000-9" }

def c9env : Env :=
  { person := .exn, roles := .exn, proposals := .exn, esaf := .exn }

/-- Witness for C9: with every endpoint unreachable, the matching fixture
is still returned and the endpoint trace is empty. -/
theorem claim9_witness :
    [c9fix].find? (fun v => v.orcid == "0000-9") = some c9fix ∧
    sandbox_get_user true [c9fix] [] c9env "0000-9" IDType.orcid true =
      ([], .ok c9fix) :=
  ⟨rfl, (claim9_sandbox_shortcircuit [c9fix] [] c9env "0000-9" true).1 c9fix rfl⟩

/-- C10: when the person response lacks the OrgEmail key, get_user (as soon
as an orcid is available) and v2_get_user_groupdetails (always) raise
KeyError from the direct subscription — not UserNotFound and not a
CommunicationError — with no record returned and no further endpoint
contacted. -/
theorem claim10_orgemail_keyerror (admins : List (String × List String))
    (env : Env) (id : String) (idt : IDType) (fetch : Bool) (orc : String)
    (s : Nat) (body : PersonResponse)
    (hp : env.person = .resp s body) (hok : isError s = false)
    (hoe : body.OrgEmail = none) :
    (truthyS (localOrcid id idt body) = true →
       get_user admins env id idt fetch =
         ([Endpoint.person], .error (.keyError "OrgEmail"))) ∧
    (v2_get_user_groupdetails admins env orc =
       ([Endpoint.person], .error (.keyError "OrgEmail"))) ∧
    ¬ PersonStepError (.keyError "OrgEmail") := by
  refine ⟨?_, ?_, ?_⟩
  · intro ht
    rw [get_user, hp, personStep_ok s body _ _ hok]
    simp only [get_user_rest, ht, if_true, hoe]
  · rw [v2_get_user_groupdetails, hp, personStep_ok s body _ _ hok]
    simp only [v2_rest, hoe]
  · rintro (h | ⟨u, h⟩ | ⟨st, h⟩) <;> cases h

def c10body : PersonResponse :=
  { LBNLID := some "9", orcid := some "0000-10", OrgEmail := none }

def c10env : Env :=
  { person := .resp 200 c10body, roles := .resp 200 none,
    proposals := .resp 200 {}, esaf := .resp 200 [] }

/-- Witness for C10 at a concrete response without the OrgEmail key. -/
theorem claim10_witness :
    c10env.person = HttpOutcome.resp 200 c10body ∧
    c10body.OrgEmail = none ∧
    get_user [] c10env "0000-10" IDType.orcid true =
      ([Endpoint.person], .error (.keyError "OrgEmail")) ∧
    v2_get_user_groupdetails [] c10env "0000-10" =
      ([Endpoint.person], .error (.keyError "OrgEmail")) := by
  have h := claim10_orgemail_keyerror [] c10env "0000-10" IDType.orcid true
    "0000-10" 200 c10body rfl rfl rfl
  exact ⟨rfl, rfl, h.1 rfl, h.2.1⟩

end Splash
